import Mathlib

/-!
Verification of the ferricode Intcode virtual machine.

The definitions below are a shallow embedding of the Rust sources:
`src/instruction.rs` (instruction decoding), `src/opcode.rs` (the opcode
enumeration), `src/memory.rs` (the sparse memory map) and `src/intcode.rs`
(the fetch-execute engine).  Machine integers are modelled explicitly:
`i32` values are `Int` with two's-complement wrapping (`wrap32`) wherever
the source performs `i32` arithmetic or an `as i32` cast, and the `usize`
registers (`instruction_pointer`, `relative_base`) are `Nat` with wrapping
modulo `2 ^ 64` (`usizeWrapAddI32`, `usizeOfI32`) wherever the source
performs a `usize` addition or an `as usize` cast.  Wrapping corresponds
to Rust release-build semantics; a debug build would abort on the same
inputs instead of wrapping, which only strengthens the divergences
recorded below.  Panics (`panic!`-style aborts, `expect`, the reachable
unreachable arm of the decoder, and out-of-bounds `Vec` indexing) are
modelled as explicit error values, since they abort the run.
-/

/-- Parameter addressing modes, from `ParameterMode` in `src/instruction.rs`. -/
inductive ParameterMode
| position
| immediate
| relative
deriving DecidableEq

/-- The ten operation codes, from `OpCode` in `src/opcode.rs`. -/
inductive OpCode
| add
| mul
| input
| output
| jumpIfZero
| jumpIfNotZero
| storeIfLessThan
| storeIfEquals
| incrementRelativeBase
| halt
deriving DecidableEq

/-- A decoded instruction, from `Instruction` in `src/instruction.rs`. -/
structure Instruction where
  opCode : OpCode
  parameterModes : List ParameterMode
deriving DecidableEq

/-- Outcome of `Instruction::try_from`: a decoded instruction, the
`Err` result, or the abort reached through the mode-digit
match arm that the source marks as unreachable. -/
inductive DecodeResult
| ok (instr : Instruction)
| err
| crash
deriving DecidableEq

/-- The `value as u32` cast of `src/instruction.rs` line 46: two's-complement
reinterpretation of an `i32` bit pattern as an unsigned 32-bit integer. -/
def toU32 (value : Int) : Nat := (value % 4294967296).toNat

/-- The opcode selected by the `match value % 100` of `Instruction::try_from`
(`src/instruction.rs` lines 47-59), as a function of the residue. -/
def opCodeOfMod : Nat → Option OpCode
| 1 => some .add
| 2 => some .mul
| 3 => some .input
| 4 => some .output
| 5 => some .jumpIfNotZero
| 6 => some .jumpIfZero
| 7 => some .storeIfLessThan
| 8 => some .storeIfEquals
| 9 => some .incrementRelativeBase
| 99 => some .halt
| _ => none

/-- Parameter count per opcode, from `src/instruction.rs` lines 62-67. -/
def parameterCount : OpCode → Nat
| .add | .mul | .storeIfLessThan | .storeIfEquals => 3
| .jumpIfNotZero | .jumpIfZero => 2
| .input | .output | .incrementRelativeBase => 1
| .halt => 0

/-- One mode digit, from the inner `match` of the mode-extraction loop
(`src/instruction.rs` lines 70-75); `none` models the abort in the
arm the source claims is unreachable. -/
def modeOfDigit : Nat → Option ParameterMode
| 0 => some .position
| 1 => some .immediate
| 2 => some .relative
| _ => none

/-- The mode-extraction loop of `Instruction::try_from`
(`src/instruction.rs` lines 69-78): digit `i` of the parameter starting
at index `start` is `value / 10 ^ (i + 2) % 10`. -/
def decodeModes (n : Nat) (start : Nat) : Nat → Option (List ParameterMode)
| 0 => some []
| k + 1 =>
  match modeOfDigit (n / 10 ^ (start + 2) % 10) with
  | none => none
  | some m =>
    match decodeModes n (start + 1) k with
    | none => none
    | some ms => some (m :: ms)

/-- `Instruction::try_from` (`src/instruction.rs` lines 40-84).  The first
guard uses the truncated (Rust `%`) remainder on the signed value; the
opcode dispatch then works on the `u32` reinterpretation. -/
def Instruction.tryFrom (value : Int) : DecodeResult :=
  let numericOpCode := value.tmod 100
  if ¬(0 ≤ numericOpCode ∧ numericOpCode ≤ 9) ∧ value ≠ 99 then .err
  else
    let n := toU32 value
    match opCodeOfMod (n % 100) with
    | none => .err
    | some op =>
      match decodeModes n 0 (parameterCount op) with
      | none => .crash
      | some ms => .ok ⟨op, ms⟩

/-- Two's-complement wrapping of an integer into the `i32` range, the
behaviour of overflowing `i32` arithmetic in a release build. -/
def wrap32 (x : Int) : Int := (x + 2147483648) % 4294967296 - 2147483648

/-- The `self.relative_base as i32` cast of `src/intcode.rs` line 45:
the low 32 bits of a `usize`, reinterpreted as signed. -/
def usizeToI32 (n : Nat) : Int := wrap32 (n : Int)

/-- The `value as usize` cast applied to an `i32` (jump targets,
`src/intcode.rs` lines 113 and 122): sign-extension reinterpreted as an
unsigned 64-bit integer. -/
def usizeOfI32 (v : Int) : Nat := (v % 18446744073709551616).toNat

/-- The `self.relative_base += offset as usize` of `src/intcode.rs`
line 149: the signed offset is cast to `usize` (sign-extending) and added
with wrapping on the unsigned 64-bit register. -/
def usizeWrapAddI32 (rb : Nat) (off : Int) : Nat :=
  (((rb : Int) + off) % 18446744073709551616).toNat

/-- `ComputerMemory` (`src/memory.rs` line 5) is a `HashMap<usize, i32>`;
we model it as an association list observed only through lookups, with
insertion shadowing the old binding. -/
abbrev ComputerMemory := List (Nat × Int)

/-- `Computer::read_memory` (`src/intcode.rs` lines 29-31): a missing key
reads as `0`. -/
def readMemoryMap (m : ComputerMemory) (addr : Nat) : Int :=
  (List.lookup addr m).getD 0

/-- `Computer::write_memory` / `HashMap::insert` (`src/intcode.rs`
lines 33-35): the new binding shadows any previous one. -/
def writeMemoryMap (m : ComputerMemory) (addr : Nat) (value : Int) : ComputerMemory :=
  (addr, value) :: m

/-- The loop body of `write_range` (`src/memory.rs` lines 20-24) indexes
the data vector by the absolute address: `self.insert(addr, data[addr])`.
`none` models the out-of-bounds `Vec` indexing panic.  The counter `k`
is the number of addresses left in the range. -/
def writeRangeAux (data : List Int) : ComputerMemory → Nat → Nat → Option ComputerMemory
| m, _, 0 => some m
| m, addr, k + 1 =>
  match data[addr]? with
  | none => none
  | some v => writeRangeAux data (writeMemoryMap m addr v) (addr + 1) k

/-- `write_range` for `ComputerMemory` (`src/memory.rs` lines 20-24),
iterating `addr` over `s..e`. -/
def writeRange (s e : Nat) (data : List Int) (m : ComputerMemory) : Option ComputerMemory :=
  writeRangeAux data m s (e - s)

/-- The engine state, from `Computer` in `src/intcode.rs` lines 7-13. -/
structure Computer where
  memory : ComputerMemory
  instructionPointer : Nat
  relativeBase : Nat
  input : List Int
  output : List Int
deriving DecidableEq

/-- The address computation of `Computer::read_addr` (`src/intcode.rs`
lines 41-52), as a pure function of the mode, the relative base and the
raw word: Position and Immediate share one arm and use the word itself;
Relative adds the word to the (truncated-to-`i32`) relative base; a
negative result is the invalid-address abort (`none`). -/
def resolveAddr (mode : ParameterMode) (relativeBase : Nat) (w : Int) : Option Nat :=
  let addr : Int :=
    match mode with
    | .position | .immediate => w
    | .relative => wrap32 (usizeToI32 relativeBase + w)
  if addr < 0 then none else some addr.toNat

/-- `Computer::read_addr` (`src/intcode.rs` lines 37-53): consume the word
at the instruction pointer, advance the pointer, and resolve the address. -/
def readAddr (mode : ParameterMode) (c : Computer) : Option (Nat × Computer) :=
  let w := readMemoryMap c.memory c.instructionPointer
  let c2 := { c with instructionPointer := c.instructionPointer + 1 }
  match resolveAddr mode c.relativeBase w with
  | none => none
  | some a => some (a, c2)

/-- `Computer::read_value` (`src/intcode.rs` lines 55-67): Immediate mode
yields the raw word; the other modes resolve an address and dereference. -/
def readValue (mode : ParameterMode) (c : Computer) : Option (Int × Computer) :=
  match mode with
  | .immediate =>
    some (readMemoryMap c.memory c.instructionPointer,
          { c with instructionPointer := c.instructionPointer + 1 })
  | _ =>
    match readAddr mode c with
    | none => none
    | some (a, c2) => some (readMemoryMap c2.memory a, c2)

/-- The fatal conditions of the engine: the two decode aborts, the
negative-resolved-address abort, the empty-queue abort of Input, and the
out-of-bounds parameter-vector indexing (dead code given the decoder's
length invariant, but present in the source as a `Vec` index). -/
inductive Fault
| invalidInstruction
| invalidModeDigit
| invalidAddress
| inputExhausted
| badParameterIndex
deriving DecidableEq

/-- `Computer::step_forward` (`src/intcode.rs` lines 69-155).  Returns
`true` with the unchanged state on Halt (the pointer is not advanced);
otherwise advances the pointer past the opcode word, resolves the
parameters left to right, performs the effect and returns `false`. -/
def stepForward (c : Computer) : Except Fault (Bool × Computer) :=
  match Instruction.tryFrom (readMemoryMap c.memory c.instructionPointer) with
  | .err => .error .invalidInstruction
  | .crash => .error .invalidModeDigit
  | .ok instr =>
    match instr.opCode with
    | .halt => .ok (true, c)
    | .add =>
      let c1 := { c with instructionPointer := c.instructionPointer + 1 }
      match instr.parameterModes with
      | [m1, m2, m3] =>
        match readValue m1 c1 with
        | none => .error .invalidAddress
        | some (a1, c2) =>
          match readValue m2 c2 with
          | none => .error .invalidAddress
          | some (a2, c3) =>
            match readAddr m3 c3 with
            | none => .error .invalidAddress
            | some (addr, c4) =>
              .ok (false, { c4 with memory := writeMemoryMap c4.memory addr (wrap32 (a1 + a2)) })
      | _ => .error .badParameterIndex
    | .mul =>
      let c1 := { c with instructionPointer := c.instructionPointer + 1 }
      match instr.parameterModes with
      | [m1, m2, m3] =>
        match readValue m1 c1 with
        | none => .error .invalidAddress
        | some (a1, c2) =>
          match readValue m2 c2 with
          | none => .error .invalidAddress
          | some (a2, c3) =>
            match readAddr m3 c3 with
            | none => .error .invalidAddress
            | some (addr, c4) =>
              .ok (false, { c4 with memory := writeMemoryMap c4.memory addr (wrap32 (a1 * a2)) })
      | _ => .error .badParameterIndex
    | .input =>
      let c1 := { c with instructionPointer := c.instructionPointer + 1 }
      match instr.parameterModes with
      | [m1] =>
        match readAddr m1 c1 with
        | none => .error .invalidAddress
        | some (addr, c2) =>
          match c2.input with
          | [] => .error .inputExhausted
          | v :: rest =>
            .ok (false, { c2 with memory := writeMemoryMap c2.memory addr v, input := rest })
      | _ => .error .badParameterIndex
    | .output =>
      let c1 := { c with instructionPointer := c.instructionPointer + 1 }
      match instr.parameterModes with
      | [m1] =>
        match readValue m1 c1 with
        | none => .error .invalidAddress
        | some (v, c2) =>
          .ok (false, { c2 with output := c2.output ++ [v] })
      | _ => .error .badParameterIndex
    | .jumpIfZero =>
      let c1 := { c with instructionPointer := c.instructionPointer + 1 }
      match instr.parameterModes with
      | [m1, m2] =>
        match readValue m1 c1 with
        | none => .error .invalidAddress
        | some (test, c2) =>
          match readValue m2 c2 with
          | none => .error .invalidAddress
          | some (t, c3) =>
            if test = 0 then
              .ok (false, { c3 with instructionPointer := usizeOfI32 t })
            else
              .ok (false, c3)
      | _ => .error .badParameterIndex
    | .jumpIfNotZero =>
      let c1 := { c with instructionPointer := c.instructionPointer + 1 }
      match instr.parameterModes with
      | [m1, m2] =>
        match readValue m1 c1 with
        | none => .error .invalidAddress
        | some (test, c2) =>
          match readValue m2 c2 with
          | none => .error .invalidAddress
          | some (t, c3) =>
            if test ≠ 0 then
              .ok (false, { c3 with instructionPointer := usizeOfI32 t })
            else
              .ok (false, c3)
      | _ => .error .badParameterIndex
    | .storeIfLessThan =>
      let c1 := { c with instructionPointer := c.instructionPointer + 1 }
      match instr.parameterModes with
      | [m1, m2, m3] =>
        match readValue m1 c1 with
        | none => .error .invalidAddress
        | some (a1, c2) =>
          match readValue m2 c2 with
          | none => .error .invalidAddress
          | some (a2, c3) =>
            match readAddr m3 c3 with
            | none => .error .invalidAddress
            | some (addr, c4) =>
              .ok (false, { c4 with memory := writeMemoryMap c4.memory addr (if a1 < a2 then 1 else 0) })
      | _ => .error .badParameterIndex
    | .storeIfEquals =>
      let c1 := { c with instructionPointer := c.instructionPointer + 1 }
      match instr.parameterModes with
      | [m1, m2, m3] =>
        match readValue m1 c1 with
        | none => .error .invalidAddress
        | some (a1, c2) =>
          match readValue m2 c2 with
          | none => .error .invalidAddress
          | some (a2, c3) =>
            match readAddr m3 c3 with
            | none => .error .invalidAddress
            | some (addr, c4) =>
              .ok (false, { c4 with memory := writeMemoryMap c4.memory addr (if a1 = a2 then 1 else 0) })
      | _ => .error .badParameterIndex
    | .incrementRelativeBase =>
      let c1 := { c with instructionPointer := c.instructionPointer + 1 }
      match instr.parameterModes with
      | [m1] =>
        match readValue m1 c1 with
        | none => .error .invalidAddress
        | some (off, c2) =>
          .ok (false, { c2 with relativeBase := usizeWrapAddI32 c2.relativeBase off })
      | _ => .error .badParameterIndex

/-- `Computer::new` (`src/intcode.rs` lines 16-27): load the program image
through `write_range(0..len, program)` into an empty map. -/
def newComputer (program feed : List Int) : Option Computer :=
  match writeRange 0 program.length program [] with
  | none => none
  | some m =>
    some { memory := m
           instructionPointer := 0
           relativeBase := 0
           input := feed
           output := [] }

/-- `Computer::run` (`src/intcode.rs` lines 157-168) with explicit fuel:
`some c` is a halted run, `none` means the fuel ran out. -/
def runFor : Nat → Computer → Except Fault (Option Computer)
| 0, _ => .ok none
| fuel + 1, c =>
  match stepForward c with
  | .error e => .error e
  | .ok (true, c2) => .ok (some c2)
  | .ok (false, c2) => runFor fuel c2

/-- Build a computer from a program and an input feed, run it, and return
its output sequence when the run halts within the fuel bound. -/
def runOutput (fuel : Nat) (program feed : List Int) : Option (List Int) :=
  match newComputer program feed with
  | none => none
  | some c =>
    match runFor fuel c with
    | .ok (some c2) => some c2.output
    | _ => none

deriving instance DecidableEq for Except

/-- The opcodes whose execution performs a memory write
(`src/intcode.rs` lines 82-104 and 129-144). -/
def writesMemory : OpCode → Bool
| .add | .mul | .input | .storeIfLessThan | .storeIfEquals => true
| _ => false

/-- Frame conditions of a single non-halt step: which state components an
opcode may change, and how the instruction pointer moves for non-jump
opcodes. -/
def StepFrame (c c2 : Computer) (op : OpCode) : Prop :=
  (writesMemory op = true →
    ∃ a v, ∀ b, readMemoryMap c2.memory b = if b = a then v else readMemoryMap c.memory b) ∧
  (writesMemory op = false → c2.memory = c.memory) ∧
  (op = .output → ∃ v, c2.output = c.output ++ [v]) ∧
  (op ≠ .output → c2.output = c.output) ∧
  (op ≠ .incrementRelativeBase → c2.relativeBase = c.relativeBase) ∧
  (op ≠ .input → c2.input = c.input) ∧
  (op ≠ .jumpIfZero → op ≠ .jumpIfNotZero →
    c2.instructionPointer = c.instructionPointer + 1 + parameterCount op)

/-- The quine program of `tests::test_quine` (`src/intcode.rs` line 231). -/
def quineProgram : List Int :=
  [109, 1, 204, -1, 1001, 100, 1, 100, 1008, 100, 16, 101, 1006, 101, 0, 99]

/-- A loaded jump-to-self program `[1105, 1, 0]`: JumpIfNotZero with two
immediate parameters, test `1`, target `0`. -/
def selfJumpComputer : Computer :=
  { memory := [(0, 1105), (1, 1), (2, 0)]
    instructionPointer := 0
    relativeBase := 0
    input := []
    output := [] }

/-- The memory image produced by loading `[109, 2000, 204, -34, 99]`
(insertions at addresses 0,1,2,3,4 in order, most recent first). -/
def day9Memory : ComputerMemory :=
  [(4, 99), (3, -34), (2, 204), (1, 2000), (0, 109)]

/-- The freshly constructed computer for `[109, 2000, 204, -34, 99]`. -/
def day9Computer : Computer :=
  { memory := day9Memory
    instructionPointer := 0
    relativeBase := 0
    input := []
    output := [] }

/-! ### Helper lemmas -/

/-- Reading after a write: the written address returns the new value,
every other address is unchanged. -/
theorem readMemoryMap_write (m : ComputerMemory) (a b : Nat) (v : Int) :
    readMemoryMap (writeMemoryMap m a v) b = if b = a then v else readMemoryMap m b := by
  by_cases h : b = a
  · simp [readMemoryMap, writeMemoryMap, List.lookup, h]
  · have hba : (b == a) = false := by simpa using h
    simp [readMemoryMap, writeMemoryMap, List.lookup, hba, h]

/-- A successful `readAddr` only advances the instruction pointer, and its
address is the pure resolution of the consumed word. -/
theorem readAddr_shape {mode : ParameterMode} {c : Computer} {a : Nat} {c2 : Computer}
    (h : readAddr mode c = some (a, c2)) :
    c2 = { c with instructionPointer := c.instructionPointer + 1 } ∧
    resolveAddr mode c.relativeBase (readMemoryMap c.memory c.instructionPointer) = some a := by
  simp only [readAddr] at h
  cases hr : resolveAddr mode c.relativeBase (readMemoryMap c.memory c.instructionPointer) with
  | none => rw [hr] at h; cases h
  | some a0 =>
    rw [hr] at h
    simp only [Option.some.injEq, Prod.mk.injEq] at h
    exact ⟨h.2.symm, by rw [h.1]⟩

/-- A successful `readValue` only advances the instruction pointer. -/
theorem readValue_shape {mode : ParameterMode} {c : Computer} {v : Int} {c2 : Computer}
    (h : readValue mode c = some (v, c2)) :
    c2 = { c with instructionPointer := c.instructionPointer + 1 } := by
  simp only [readValue] at h
  cases mode with
  | immediate => simp only [Option.some.injEq, Prod.mk.injEq] at h; exact h.2.symm
  | position =>
    cases hr : readAddr ParameterMode.position c with
    | none => rw [hr] at h; cases h
    | some p =>
      rw [hr] at h
      simp only [Option.some.injEq, Prod.mk.injEq] at h
      exact h.2.symm ▸ (readAddr_shape hr).1
  | relative =>
    cases hr : readAddr ParameterMode.relative c with
    | none => rw [hr] at h; cases h
    | some p =>
      rw [hr] at h
      simp only [Option.some.injEq, Prod.mk.injEq] at h
      exact h.2.symm ▸ (readAddr_shape hr).1

/-! ### Claim theorems -/

/-- Claim C1.  The claim states that after `AdjustRelativeBase` the
relative-base register equals its previous value plus the resolved
operand for every signed operand, without fault at the point of
adjustment.  The code instead accumulates into the unsigned
`usize`-typed register: adjusting base `0` by operand `-1` (program
`[109, -1, 99]`) leaves the register at `2 ^ 64 - 1`, not at `-1` as the
claim requires — release builds wrap, debug builds abort on the
corresponding unsigned overflow. -/
theorem incrementRelativeBase_wraps_unsigned :
    (newComputer [109, -1, 99] []).map
        (fun c => (stepForward c).toOption.map (fun p => p.2.relativeBase))
      = some (some 18446744073709551615) ∧
    (18446744073709551615 : Int) ≠ 0 + (-1) := by
  constructor
  · decide
  · decide

/-- Claim C2, counterexample.  The claim states that whenever an Input
opcode executes with an empty input queue the run terminates with the
input-exhausted fault.  But the destination address is resolved before
the queue is consulted (`src/intcode.rs` lines 99-100): program
`[203, -5]` with an empty queue executes Input with relative mode,
resolves address `-5`, and aborts with the invalid-address fault, not
the input-exhausted one. -/
theorem input_fault_not_exhausted_on_bad_address :
    (newComputer [203, -5] []).map stepForward = some (.error .invalidAddress) ∧
    Fault.invalidAddress ≠ Fault.inputExhausted := by
  constructor
  · decide
  · decide

/-- Claim C4, counterexample.  The claim states that decoding succeeds
exactly when `value mod 100` is one of the nine operation codes 1-9 or
the value is 99.  Value `301` reduces to opcode 1 (Add) mod 100, yet
decoding does not succeed: the first parameter's mode digit is 3 and the
decoder aborts through its unreachable arm. -/
theorem decode_mode_digit_breaks_success_iff :
    Instruction.tryFrom 301 = DecodeResult.crash ∧ (301 : Int).tmod 100 = 1 := by
  constructor
  · decide
  · decide

/-- Claim C5.  The claim (and `src/instruction.rs`'s own `unreachable!`
marker) says a mode digit outside `{0,1,2}` yields an invalid-instruction
error result, not a crash; but the decoder reaches the arm the source
asserts unreachable and aborts.  Value `302` (Mul with first mode digit
3) exhibits it; the digit mapping 0/1/2 to Position/Immediate/Relative
holds as claimed. -/
theorem decode_bad_mode_digit_crashes :
    Instruction.tryFrom 302 = DecodeResult.crash ∧
    modeOfDigit 0 = some ParameterMode.position ∧
    modeOfDigit 1 = some ParameterMode.immediate ∧
    modeOfDigit 2 = some ParameterMode.relative := by
  refine ⟨?_, ?_, ?_, ?_⟩ <;> decide

/-- Claim C6.  Immediate mode is never resolved as an immediate literal
when an address is produced: the address-resolution function treats
Immediate exactly as Position (`src/intcode.rs` line 42), both at the
level of the pure resolution and of the stateful `read_addr`, and every
write destination in the engine goes through `readAddr`. -/
theorem immediate_never_literal_for_addresses :
    (∀ (rb : Nat) (w : Int),
      resolveAddr ParameterMode.immediate rb w = resolveAddr ParameterMode.position rb w) ∧
    (∀ c : Computer, readAddr ParameterMode.immediate c = readAddr ParameterMode.position c) := by
  exact ⟨fun rb w => rfl, fun c => rfl⟩

/-- Claim C7, counterexample.  The claim states the instruction pointer
advances on every non-halt step.  The jump-to-self program `[1105, 1, 0]`
performs a non-halt step (the returned flag is `false`) that leaves the
entire state — in particular the instruction pointer — exactly as it
was. -/
theorem step_self_jump_pointer_unchanged :
    stepForward selfJumpComputer = .ok (false, selfJumpComputer) := by decide

/-- Claim C8.  Running the 16-word quine program with an empty input feed
halts and produces an output sequence equal, element for element and in
order, to the program itself. -/
theorem quine_outputs_itself :
    runOutput 120 quineProgram [] = some quineProgram := by decide

/-- Claim C3.  For a parameter resolved as an address, Position mode uses
the raw word itself and Relative mode the raw word plus the current
relative base; the resolution faults (aborts the run) exactly when that
value is negative, and any address it returns is the (non-negative)
claimed value.  The hypotheses keep the relative base and the sum inside
the `i32` range, where the source's casts are value-preserving. -/
theorem resolveAddr_fault_iff_negative (rb : Nat) (w : Int)
    (h1 : rb < 2147483648) (h2 : -2147483648 ≤ w)
    (h3 : (rb : Int) + w < 2147483648) :
    (resolveAddr ParameterMode.position rb w
        = if w < 0 then none else some w.toNat) ∧
    (resolveAddr ParameterMode.relative rb w
        = if (rb : Int) + w < 0 then none else some ((rb : Int) + w).toNat) := by
  constructor
  · rfl
  · have hw : wrap32 (usizeToI32 rb + w) = (rb : Int) + w := by
      simp only [wrap32, usizeToI32]
      omega
    simp only [resolveAddr, hw]

/-- Claim C3, witness: relative base 5 with word -7 resolves to the
negative address -2 and faults; with word -3 it resolves to address 2. -/
theorem resolveAddr_fault_iff_negative_witness :
    (resolveAddr ParameterMode.relative 5 (-7) = none) ∧
    (resolveAddr ParameterMode.relative 5 (-3) = some 2) := by
  constructor
  · have h := (resolveAddr_fault_iff_negative 5 (-7) (by decide) (by decide) (by decide)).2
    rw [h]
    decide
  · have h := (resolveAddr_fault_iff_negative 5 (-3) (by decide) (by decide) (by decide)).2
    rw [h]
    decide

/-- Claim C2, amended.  When an Input opcode executes and its destination
address resolves successfully: with a non-empty queue the front element
is removed and written to that address; with an empty queue the step
aborts with the input-exhausted fault and no state is produced.  (If the
address resolution itself faults, the run aborts with the invalid-address
fault before the queue is consulted.) -/
theorem input_step_semantics (c c2 : Computer) (mo : ParameterMode) (a : Nat)
    (hdec : Instruction.tryFrom (readMemoryMap c.memory c.instructionPointer)
      = DecodeResult.ok ⟨OpCode.input, [mo]⟩)
    (haddr : readAddr mo { c with instructionPointer := c.instructionPointer + 1 }
      = some (a, c2)) :
    (c.input = [] → stepForward c = .error .inputExhausted) ∧
    (∀ v rest, c.input = v :: rest →
      stepForward c
        = .ok (false, { c2 with memory := writeMemoryMap c2.memory a v, input := rest })) := by
  have hc2 := (readAddr_shape haddr).1
  have hinp : c2.input = c.input := by rw [hc2]
  constructor
  · intro hemp
    simp only [stepForward, hdec]
    rw [haddr]
    dsimp only
    rw [hinp, hemp]
  · intro v rest hcons
    simp only [stepForward, hdec]
    rw [haddr]
    dsimp only
    rw [hinp, hcons]

/-- Claim C2, witness: for the program `[3, 0]`, an empty queue makes the
Input step abort with the input-exhausted fault, and a queue `[7]` makes
it write `7` to address `0`, consume the queue and advance the pointer. -/
theorem input_step_semantics_witness :
    (stepForward (⟨[(0, 3), (1, 0)], 0, 0, [], []⟩ : Computer)
      = .error .inputExhausted) ∧
    (stepForward (⟨[(0, 3), (1, 0)], 0, 0, [7], []⟩ : Computer)
      = .ok (false, (⟨writeMemoryMap [(0, 3), (1, 0)] 0 7, 2, 0, [], []⟩ : Computer))) :=
  ⟨(input_step_semantics (⟨[(0, 3), (1, 0)], 0, 0, [], []⟩ : Computer)
      (⟨[(0, 3), (1, 0)], 2, 0, [], []⟩ : Computer) ParameterMode.position 0
      (by decide) (by decide)).1 rfl,
   (input_step_semantics (⟨[(0, 3), (1, 0)], 0, 0, [7], []⟩ : Computer)
      (⟨[(0, 3), (1, 0)], 2, 0, [7], []⟩ : Computer) ParameterMode.position 0
      (by decide) (by decide)).2 7 [] rfl⟩

/-- Addresses at or beyond the end of the written range keep their old
binding after `writeRangeAux`. -/
theorem writeRangeAux_lookup_high (data : List Int) :
    ∀ (k s : Nat) (m m2 : ComputerMemory), writeRangeAux data m s k = some m2 →
      ∀ a : Nat, s + k ≤ a → List.lookup a m2 = List.lookup a m := by
  intro k
  induction k with
  | zero =>
    intro s m m2 h a _
    simp only [writeRangeAux, Option.some.injEq] at h
    rw [h]
  | succ n ih =>
    intro s m m2 h a ha
    simp only [writeRangeAux] at h
    cases hd : data[s]? with
    | none => rw [hd] at h; cases h
    | some v =>
      rw [hd] at h
      rw [ih (s + 1) (writeMemoryMap m s v) m2 h a (by omega)]
      have hne : (a == s) = false := by simpa using (by omega : a ≠ s)
      simp [writeMemoryMap, List.lookup, hne]

/-- Claim C9.  An address never written — by the initial program image or
by any later insertion — reads as zero; in particular a freshly loaded
computer reads zero at every address at or beyond the program's length,
and the program `[109, 2000, 204, -34, 99]` with no input halts with
output exactly `[0]`, reading the never-written address 1966. -/
theorem unwritten_memory_reads_zero :
    (∀ (c : Computer) (program feed : List Int) (a : Nat),
        newComputer program feed = some c → program.length ≤ a →
        readMemoryMap c.memory a = 0) ∧
    runOutput 10 [109, 2000, 204, -34, 99] [] = some [0] := by
  constructor
  · intro c program feed a hnew ha
    simp only [newComputer, writeRange, Nat.sub_zero] at hnew
    cases hw : writeRangeAux program [] 0 program.length with
    | none => rw [hw] at hnew; cases hnew
    | some m =>
      rw [hw] at hnew
      simp only [Option.some.injEq] at hnew
      have hl := writeRangeAux_lookup_high program program.length 0 [] m hw a (by omega)
      rw [← hnew]
      simp [readMemoryMap, hl, List.lookup]
  · decide

/-- Claim C9, witness: the loaded memory of `[109, 2000, 204, -34, 99]`
reads zero at the never-written address 1966. -/
theorem unwritten_memory_reads_zero_witness :
    readMemoryMap day9Computer.memory 1966 = 0 :=
  unwritten_memory_reads_zero.1 day9Computer [109, 2000, 204, -34, 99] [] 1966
    (by decide) (by decide)

/-- When the written range fits inside the data vector, `writeRangeAux`
completes, leaves addresses below the range untouched, and stores
`data[a]` at every address `a` of the range. -/
theorem writeRangeAux_complete (data : List Int) :
    ∀ (k s : Nat) (m : ComputerMemory), s + k ≤ data.length →
      ∃ m2, writeRangeAux data m s k = some m2 ∧
        (∀ a : Nat, a < s → List.lookup a m2 = List.lookup a m) ∧
        (∀ (a : Nat) (v : Int), s ≤ a → a < s + k → data[a]? = some v →
          readMemoryMap m2 a = v) := by
  intro k
  induction k with
  | zero =>
    intro s m _
    exact ⟨m, rfl, fun a _ => rfl, fun a v h1 h2 _ => absurd (by omega : a < a) (by omega)⟩
  | succ n ih =>
    intro s m hk
    have hs : s < data.length := by omega
    obtain ⟨m2, hw, hlow, hhigh⟩ := ih (s + 1) (writeMemoryMap m s data[s]) (by omega)
    refine ⟨m2, ?_, ?_, ?_⟩
    · simp only [writeRangeAux, List.getElem?_eq_getElem hs]
      exact hw
    · intro a haa
      rw [hlow a (by omega)]
      have hne : (a == s) = false := by simpa using (by omega : a ≠ s)
      simp [writeMemoryMap, List.lookup, hne]
    · intro a v h1 h2 hv
      rcases Nat.eq_or_lt_of_le h1 with heq | hlt
      · subst heq
        have hls := hlow s (by omega)
        rw [List.getElem?_eq_getElem hs, Option.some.injEq] at hv
        simp [readMemoryMap, hls, writeMemoryMap, List.lookup, hv]
      · exact hhigh a v (by omega) (by omega) hv

/-- A non-empty write whose last visited address falls at or beyond the
end of the data vector reaches the out-of-bounds index and aborts. -/
theorem writeRangeAux_oob (data : List Int) :
    ∀ (k s : Nat) (m : ComputerMemory), data.length ≤ s + k →
      writeRangeAux data m s (k + 1) = none := by
  intro k
  induction k with
  | zero =>
    intro s m hk
    simp only [writeRangeAux, List.getElem?_eq_none (by omega : data.length ≤ s)]
  | succ n ih =>
    intro s m hk
    by_cases hs : data.length ≤ s
    · simp only [writeRangeAux, List.getElem?_eq_none hs]
    · have hs2 : s < data.length := by omega
      simp only [writeRangeAux, List.getElem?_eq_getElem hs2]
      exact ih (s + 1) (writeMemoryMap m s data[s]) (by omega)

/-- Claim C10.  `write_range` indexes the data vector by the absolute
address: a range starting at 0 with data of the range's length completes
and stores `data[i]` at address `i`, while every non-empty range starting
at 1 or later with data of exactly the range's length reaches an
out-of-bounds index into the data vector and aborts. -/
theorem writeRange_absolute_indexing :
    (∀ (data : List Int) (m : ComputerMemory),
        ∃ m2, writeRange 0 data.length data m = some m2 ∧
          ∀ (i : Nat) (v : Int), data[i]? = some v → readMemoryMap m2 i = v) ∧
    (∀ (s e : Nat) (data : List Int) (m : ComputerMemory),
        1 ≤ s → s < e → data.length = e - s → writeRange s e data m = none) := by
  constructor
  · intro data m
    obtain ⟨m2, hw, _, hval⟩ := writeRangeAux_complete data data.length 0 m (by omega)
    refine ⟨m2, ?_, ?_⟩
    · simp only [writeRange, Nat.sub_zero]
      exact hw
    · intro i v hv
      obtain ⟨hi, _⟩ := List.getElem?_eq_some_iff.mp hv
      exact hval i v (by omega) (by omega) hv
  · intro s e data m hs hse hlen
    have hob := writeRangeAux_oob data (e - s - 1) s m (by omega)
    rw [show e - s - 1 + 1 = e - s by omega] at hob
    simp only [writeRange]
    exact hob

/-- Claim C10, witness: loading `[7]` over the range `0..1` completes and
stores `7` at address 0, while writing `[5]` over the range `1..2`
aborts on the out-of-bounds index. -/
theorem writeRange_absolute_indexing_witness :
    (∃ m2, writeRange 0 ([7] : List Int).length [7] [] = some m2 ∧
        ∀ (i : Nat) (v : Int), ([7] : List Int)[i]? = some v → readMemoryMap m2 i = v) ∧
    writeRange 1 2 [5] [] = none :=
  ⟨writeRange_absolute_indexing.1 [7] [],
   writeRange_absolute_indexing.2 1 2 [5] [] (by decide) (by decide) (by decide)⟩

/-- The opcode dispatch returns nothing exactly for residues outside the
nine operation codes and 99. -/
theorem opCodeOfMod_none_iff :
    ∀ m : Fin 100,
      (opCodeOfMod m.val = none ↔ ¬((1 ≤ m.val ∧ m.val ≤ 9) ∨ m.val = 99)) := by
  decide

/-- Claim C4, amended.  For every `i32` value, decoding yields the
invalid-instruction error exactly when the value's truncated (Rust `%`)
remainder mod 100 is not one of the nine operation codes 1-9 and the
value is not exactly 99; when that condition holds the decoder instead
returns an instruction or aborts on a bad mode digit, never the
invalid-instruction error. -/
theorem decode_err_iff_bad_opcode (value : Int)
    (hlo : -2147483648 ≤ value) (hhi : value < 2147483648) :
    (Instruction.tryFrom value = DecodeResult.err ↔
      ¬((1 ≤ value.tmod 100 ∧ value.tmod 100 ≤ 9) ∨ value = 99)) := by
  by_cases h99 : value = 99
  · subst h99
    decide
  simp only [Instruction.tryFrom]
  split_ifs with hg
  · constructor
    · intro _
      rintro (⟨ha, hb⟩ | hc)
      · exact hg.1 ⟨by omega, hb⟩
      · exact hg.2 hc
    · intro _
      rfl
  · have hg2 : 0 ≤ value.tmod 100 ∧ value.tmod 100 ≤ 9 := by
      by_contra hc
      exact hg ⟨hc, h99⟩
    cases value with
    | ofNat nv =>
      have hcast : Int.ofNat nv = (nv : Int) := rfl
      rw [hcast] at hlo hhi h99 hg2 ⊢
      have ht : ((nv : Int)).tmod 100 = ((nv % 100 : Nat) : Int) := rfl
      have htu : toU32 (nv : Int) = nv := by
        simp only [toU32]
        omega
      rw [ht] at hg2 ⊢
      rw [htu]
      rcases Nat.eq_zero_or_pos (nv % 100) with hk0 | hkpos
      · rw [hk0]
        constructor
        · intro _
          rintro (⟨ha, _⟩ | hc)
          · exact absurd ha (by decide)
          · exact h99 hc
        · intro _
          rfl
      · have hk9 : nv % 100 ≤ 9 := by omega
        cases hoc : opCodeOfMod (nv % 100) with
        | none =>
          exfalso
          exact (opCodeOfMod_none_iff ⟨nv % 100, by omega⟩).mp hoc (Or.inl ⟨hkpos, hk9⟩)
        | some op =>
          dsimp only
          cases hdm : decodeModes nv 0 (parameterCount op) with
          | none =>
            dsimp only
            constructor
            · intro h
              cases h
            · intro h
              exact absurd (Or.inl ⟨by omega, hg2.2⟩) h
          | some ms =>
            dsimp only
            constructor
            · intro h
              cases h
            · intro h
              exact absurd (Or.inl ⟨by omega, hg2.2⟩) h
    | negSucc mv =>
      have ht : (Int.negSucc mv).tmod 100 = -(((mv + 1) % 100 : Nat) : Int) := rfl
      have hneg : Int.negSucc mv = -((mv : Int) + 1) := Int.negSucc_eq mv
      rw [hneg] at hlo
      have hq0 : (mv + 1) % 100 = 0 := by
        rw [ht] at hg2
        omega
      have hk96 : toU32 (Int.negSucc mv) % 100 = 96 := by
        have h1 : -((mv : Int) + 1) % 4294967296 = 4294967296 - ((mv : Int) + 1) := by
          omega
        simp only [toU32, hneg, h1]
        omega
      rw [hk96, ht]
      constructor
      · intro _
        rintro (⟨ha, _⟩ | hc)
        · omega
        · exact h99 hc
      · intro _
        rfl

/-- Claim C4, witness: value 100 reduces to opcode digit 0 and decodes to
the invalid-instruction error. -/
theorem decode_err_iff_bad_opcode_witness :
    Instruction.tryFrom 100 = DecodeResult.err :=
  (decode_err_iff_bad_opcode 100 (by decide) (by decide)).mpr (by decide)

/-- Claim C7, amended.  For every single non-halt fetch-execute step:
memory changes only under Add, Multiply, Input, LessThan or Equals, and
then by exactly one written cell; the output changes only under Output,
and then by exactly one appended element; the relative base changes only
under AdjustRelativeBase; the input queue changes only under Input; and
for every non-jump opcode the instruction pointer is advanced exactly
past the opcode word and the consumed parameter words (a taken jump may
instead set it anywhere, including backwards or to itself). -/
theorem step_frame_conditions (c c2 : Computer) (instr : Instruction)
    (hdec : Instruction.tryFrom (readMemoryMap c.memory c.instructionPointer)
      = DecodeResult.ok instr)
    (hstep : stepForward c = .ok (false, c2)) :
    StepFrame c c2 instr.opCode := by
  obtain ⟨op, modes⟩ := instr
  simp only [stepForward, hdec] at hstep
  cases op with
  | halt =>
    dsimp only at hstep
    injection hstep with h1
    injection h1 with h2 h3
    exact Bool.noConfusion h2
  | add =>
    dsimp only at hstep
    rcases modes with _ | ⟨m1, _ | ⟨m2, _ | ⟨m3, _ | ⟨m4, rest⟩⟩⟩⟩ <;>
      try exact Except.noConfusion hstep
    dsimp only at hstep
    split at hstep
    · exact Except.noConfusion hstep
    · rename_i a1 d1 hv1
      split at hstep
      · exact Except.noConfusion hstep
      · rename_i a2 d2 hv2
        split at hstep
        · exact Except.noConfusion hstep
        · rename_i addr d3 hv3
          injection hstep with h1
          injection h1 with h2 h3
          subst h3
          obtain rfl := readValue_shape hv1
          obtain rfl := readValue_shape hv2
          obtain ⟨rfl, -⟩ := readAddr_shape hv3
          dsimp only
          refine ⟨?_, ?_, ?_, ?_, ?_, ?_, ?_⟩
          · intro _
            exact ⟨addr, wrap32 (a1 + a2),
              fun b => readMemoryMap_write c.memory addr b (wrap32 (a1 + a2))⟩
          · intro h
            exact absurd h (by decide)
          · intro h
            exact absurd h (by decide)
          · intro _
            rfl
          · intro _
            rfl
          · intro _
            rfl
          · intro _ _
            dsimp only [parameterCount]
  | mul =>
    dsimp only at hstep
    rcases modes with _ | ⟨m1, _ | ⟨m2, _ | ⟨m3, _ | ⟨m4, rest⟩⟩⟩⟩ <;>
      try exact Except.noConfusion hstep
    dsimp only at hstep
    split at hstep
    · exact Except.noConfusion hstep
    · rename_i a1 d1 hv1
      split at hstep
      · exact Except.noConfusion hstep
      · rename_i a2 d2 hv2
        split at hstep
        · exact Except.noConfusion hstep
        · rename_i addr d3 hv3
          injection hstep with h1
          injection h1 with h2 h3
          subst h3
          obtain rfl := readValue_shape hv1
          obtain rfl := readValue_shape hv2
          obtain ⟨rfl, -⟩ := readAddr_shape hv3
          dsimp only
          refine ⟨?_, ?_, ?_, ?_, ?_, ?_, ?_⟩
          · intro _
            exact ⟨addr, wrap32 (a1 * a2),
              fun b => readMemoryMap_write c.memory addr b (wrap32 (a1 * a2))⟩
          · intro h
            exact absurd h (by decide)
          · intro h
            exact absurd h (by decide)
          · intro _
            rfl
          · intro _
            rfl
          · intro _
            rfl
          · intro _ _
            dsimp only [parameterCount]
  | input =>
    dsimp only at hstep
    rcases modes with _ | ⟨m1, _ | ⟨m2, rest⟩⟩ <;>
      try exact Except.noConfusion hstep
    dsimp only at hstep
    split at hstep
    · exact Except.noConfusion hstep
    · rename_i addr d1 hv1
      split at hstep
      · exact Except.noConfusion hstep
      · rename_i v rest hin
        injection hstep with h1
        injection h1 with h2 h3
        subst h3
        obtain ⟨rfl, -⟩ := readAddr_shape hv1
        dsimp only
        refine ⟨?_, ?_, ?_, ?_, ?_, ?_, ?_⟩
        · intro _
          exact ⟨addr, v, fun b => readMemoryMap_write c.memory addr b v⟩
        · intro h
          exact absurd h (by decide)
        · intro h
          exact absurd h (by decide)
        · intro _
          rfl
        · intro _
          rfl
        · intro h
          exact absurd rfl h
        · intro _ _
          dsimp only [parameterCount]
  | output =>
    dsimp only at hstep
    rcases modes with _ | ⟨m1, _ | ⟨m2, rest⟩⟩ <;>
      try exact Except.noConfusion hstep
    dsimp only at hstep
    split at hstep
    · exact Except.noConfusion hstep
    · rename_i v d1 hv1
      injection hstep with h1
      injection h1 with h2 h3
      subst h3
      obtain rfl := readValue_shape hv1
      dsimp only
      refine ⟨?_, ?_, ?_, ?_, ?_, ?_, ?_⟩
      · intro h
        exact absurd h (by decide)
      · intro _
        rfl
      · intro _
        exact ⟨v, rfl⟩
      · intro h
        exact absurd rfl h
      · intro _
        rfl
      · intro _
        rfl
      · intro _ _
        dsimp only [parameterCount]
  | jumpIfZero =>
    dsimp only at hstep
    rcases modes with _ | ⟨m1, _ | ⟨m2, _ | ⟨m3, rest⟩⟩⟩ <;>
      try exact Except.noConfusion hstep
    dsimp only at hstep
    split at hstep
    · exact Except.noConfusion hstep
    · rename_i test d1 hv1
      split at hstep
      · exact Except.noConfusion hstep
      · rename_i t d2 hv2
        split at hstep <;>
        · injection hstep with h1
          injection h1 with h2 h3
          subst h3
          obtain rfl := readValue_shape hv1
          obtain rfl := readValue_shape hv2
          dsimp only
          refine ⟨?_, ?_, ?_, ?_, ?_, ?_, ?_⟩
          · intro h
            exact absurd h (by decide)
          · intro _
            rfl
          · intro h
            exact absurd h (by decide)
          · intro _
            rfl
          · intro _
            rfl
          · intro _
            rfl
          · intro h _
            exact absurd rfl h
  | jumpIfNotZero =>
    dsimp only at hstep
    rcases modes with _ | ⟨m1, _ | ⟨m2, _ | ⟨m3, rest⟩⟩⟩ <;>
      try exact Except.noConfusion hstep
    dsimp only at hstep
    split at hstep
    · exact Except.noConfusion hstep
    · rename_i test d1 hv1
      split at hstep
      · exact Except.noConfusion hstep
      · rename_i t d2 hv2
        split at hstep <;>
        · injection hstep with h1
          injection h1 with h2 h3
          subst h3
          obtain rfl := readValue_shape hv1
          obtain rfl := readValue_shape hv2
          dsimp only
          refine ⟨?_, ?_, ?_, ?_, ?_, ?_, ?_⟩
          · intro h
            exact absurd h (by decide)
          · intro _
            rfl
          · intro h
            exact absurd h (by decide)
          · intro _
            rfl
          · intro _
            rfl
          · intro _
            rfl
          · intro _ h
            exact absurd rfl h
  | storeIfLessThan =>
    dsimp only at hstep
    rcases modes with _ | ⟨m1, _ | ⟨m2, _ | ⟨m3, _ | ⟨m4, rest⟩⟩⟩⟩ <;>
      try exact Except.noConfusion hstep
    dsimp only at hstep
    split at hstep
    · exact Except.noConfusion hstep
    · rename_i a1 d1 hv1
      split at hstep
      · exact Except.noConfusion hstep
      · rename_i a2 d2 hv2
        split at hstep
        · exact Except.noConfusion hstep
        · rename_i addr d3 hv3
          injection hstep with h1
          injection h1 with h2 h3
          subst h3
          obtain rfl := readValue_shape hv1
          obtain rfl := readValue_shape hv2
          obtain ⟨rfl, -⟩ := readAddr_shape hv3
          dsimp only
          refine ⟨?_, ?_, ?_, ?_, ?_, ?_, ?_⟩
          · intro _
            exact ⟨addr, if a1 < a2 then 1 else 0,
              fun b => readMemoryMap_write c.memory addr b (if a1 < a2 then 1 else 0)⟩
          · intro h
            exact absurd h (by decide)
          · intro h
            exact absurd h (by decide)
          · intro _
            rfl
          · intro _
            rfl
          · intro _
            rfl
          · intro _ _
            dsimp only [parameterCount]
  | storeIfEquals =>
    dsimp only at hstep
    rcases modes with _ | ⟨m1, _ | ⟨m2, _ | ⟨m3, _ | ⟨m4, rest⟩⟩⟩⟩ <;>
      try exact Except.noConfusion hstep
    dsimp only at hstep
    split at hstep
    · exact Except.noConfusion hstep
    · rename_i a1 d1 hv1
      split at hstep
      · exact Except.noConfusion hstep
      · rename_i a2 d2 hv2
        split at hstep
        · exact Except.noConfusion hstep
        · rename_i addr d3 hv3
          injection hstep with h1
          injection h1 with h2 h3
          subst h3
          obtain rfl := readValue_shape hv1
          obtain rfl := readValue_shape hv2
          obtain ⟨rfl, -⟩ := readAddr_shape hv3
          dsimp only
          refine ⟨?_, ?_, ?_, ?_, ?_, ?_, ?_⟩
          · intro _
            exact ⟨addr, if a1 = a2 then 1 else 0,
              fun b => readMemoryMap_write c.memory addr b (if a1 = a2 then 1 else 0)⟩
          · intro h
            exact absurd h (by decide)
          · intro h
            exact absurd h (by decide)
          · intro _
            rfl
          · intro _
            rfl
          · intro _
            rfl
          · intro _ _
            dsimp only [parameterCount]
  | incrementRelativeBase =>
    dsimp only at hstep
    rcases modes with _ | ⟨m1, _ | ⟨m2, rest⟩⟩ <;>
      try exact Except.noConfusion hstep
    dsimp only at hstep
    split at hstep
    · exact Except.noConfusion hstep
    · rename_i off d1 hv1
      injection hstep with h1
      injection h1 with h2 h3
      subst h3
      obtain rfl := readValue_shape hv1
      dsimp only
      refine ⟨?_, ?_, ?_, ?_, ?_, ?_, ?_⟩
      · intro h
        exact absurd h (by decide)
      · intro _
        rfl
      · intro h
        exact absurd h (by decide)
      · intro _
        rfl
      · intro h
        exact absurd rfl h
      · intro _
        rfl
      · intro _ _
        dsimp only [parameterCount]

/-- Claim C7, witness: one Add step of the program `[1101, 2, 3, 0, 99]`
(immediate operands 2 and 3, destination 0) satisfies the frame
conditions. -/
theorem step_frame_conditions_witness :
    StepFrame
      (⟨[(0, 1101), (1, 2), (2, 3), (3, 0), (4, 99)], 0, 0, [], []⟩ : Computer)
      (⟨(0, 5) :: [(0, 1101), (1, 2), (2, 3), (3, 0), (4, 99)], 4, 0, [], []⟩ : Computer)
      OpCode.add :=
  step_frame_conditions
    (⟨[(0, 1101), (1, 2), (2, 3), (3, 0), (4, 99)], 0, 0, [], []⟩ : Computer)
    (⟨(0, 5) :: [(0, 1101), (1, 2), (2, 3), (3, 0), (4, 99)], 4, 0, [], []⟩ : Computer)
    ⟨OpCode.add, [ParameterMode.immediate, ParameterMode.immediate, ParameterMode.position]⟩
    (by decide) (by decide)
